import Mathlib

/-!
# golang-tutorial: parameter-passing demo and struct demo

Shallow embedding of `3-function/ch_1/main.go` and `5-struct/ch_1/main.go`.

Go's `int` is a signed two's-complement integer of `w` bits (`w = 64` on
64-bit platforms, `w = 32` on 32-bit ones).  Values of type `int` are
modelled as mathematical integers in the range `[-2^(w-1), 2^(w-1))`, and
every arithmetic operator of the source is followed by an explicit
reduction into that range, as the Go specification prescribes for signed
overflow.
-/

namespace GolangTutorial

/-! ## Go `int` arithmetic -/

/-- Range predicate of a `w`-bit signed integer. -/
def IsInt (w : Nat) (z : Int) : Prop :=
  -(2 ^ (w - 1)) ≤ z ∧ z < 2 ^ (w - 1)

instance (w : Nat) (z : Int) : Decidable (IsInt w z) := by
  unfold IsInt; infer_instance

/-- Two's-complement reduction of a mathematical integer into the `w`-bit
signed range: the result of every `int` operator of Go. -/
def wrapInt (w : Nat) (z : Int) : Int :=
  (z + 2 ^ (w - 1)) % 2 ^ w - 2 ^ (w - 1)

/-! ## `3-function/ch_1/main.go` -/

/-- Source: `func add(x int, y int) int { return x + y }`. -/
def add (w : Nat) (x y : Int) : Int :=
  wrapInt w (x + y)

/-- Source: `func swap(x, y int) (int, int) { return y, x }`. -/
def swap (x y : Int) : Int × Int :=
  (y, x)

/-- Source: `func swap2(x, y int) (a int, b int) { a = y; b = x; return }`.
The named results `a` and `b` are assigned in turn and returned. -/
def swap2 (x y : Int) : Int × Int :=
  let a := y
  let b := x
  (a, b)

/-- Source: `func variableCut(x int, y ...int) int`, whose body is
`for _, v := range y { x += v }; return x`. -/
def variableCut (w : Nat) (x : Int) (y : List Int) : Int :=
  y.foldl (fun x v => wrapInt w (x + v)) x

/-- Reference to an `int` variable (Go type `*int`): `nil`, or the address
of a cell of the store. -/
inductive IntPtr where
  | nil : IntPtr
  | addr (a : Nat) : IntPtr
deriving DecidableEq

/-- Storage of the `int` variables that are alive: the variable at address
`i` holds the value at index `i`. -/
abbrev Store := List Int

/-- Read through a reference (`*p`); `none` is the run-time panic of a nil
dereference (or of an address that names no live variable). -/
def load (m : Store) : IntPtr → Option Int
  | .nil => none
  | .addr a => m[a]?

/-- Write through a reference (`*p = v`); `none` as for `load`. -/
def store (m : Store) (p : IntPtr) (v : Int) : Option Store :=
  match p with
  | .nil => none
  | .addr a => if a < m.length then some (m.set a v) else none

/-- Source: `func modifyValue(x int) { x = x * 10 }`.
The parameter `x` is a fresh variable of the callee, initialised with a copy
of the argument; it is read, reassigned, and released when the call returns.
The function has no result: what is returned is the store after the call. -/
def modifyValue (w : Nat) (m : Store) (x : Int) : Option Store := do
  let px := IntPtr.addr m.length
  let m := m ++ [x]
  let v ← load m px
  let m ← store m px (wrapInt w (v * 10))
  pure m.dropLast

/-- Source: `func modifyPointer(x *int) { *x = (*x) * 10 }`. -/
def modifyPointer (w : Nat) (m : Store) (x : IntPtr) : Option Store := do
  let v ← load m x
  store m x (wrapInt w (v * 10))

/-- Call site `modifyValue(x)` of `main`, for a caller variable `x` stored at
address `px`: the argument expression `x` is evaluated, then the call is made. -/
def callModifyValue (w : Nat) (m : Store) (px : Nat) : Option Store := do
  let v ← load m (.addr px)
  modifyValue w m v

/-- Call site `modifyPointer(&x)` of `main`, for a caller variable `x` stored
at address `px`: the argument is the address of `x`. -/
def callModifyPointer (w : Nat) (m : Store) (px : Nat) : Option Store :=
  modifyPointer w m (.addr px)

/-! ## `5-struct/ch_1/main.go` -/

/-- Source: `type Demo struct { a bool; B byte; C int; D float32; E string;
F []int; G map[string]int }`.
`B` is a byte; `D` is held as the IEEE-754 single-precision bit pattern of the
`float32` value; `F` is the sequence of the elements of the slice; `G` is the
list of the key/value entries of the map. -/
structure Demo where
  a : Bool
  B : Fin 256
  C : Int
  D : Fin 4294967296
  E : String
  F : List Int
  G : List (String × Int)
deriving DecidableEq

/-- Source: the assignment `d.a = v` (in `main`, `d.a = false`). -/
def Demo.setA (d : Demo) (v : Bool) : Demo :=
  { d with a := v }

/-- Source: the composite literal of `main`:
`Demo{a: true, B: 'b', C: 1, D: 1.0, E: "E", F: []int{1}, G: map[string]int{"GOLANG": 1}}`.
The byte `'b'` is 98 and the `float32` value `1.0` has bit pattern `0x3F800000`. -/
def mainDemo : Demo :=
  { a := true, B := 98, C := 1, D := 0x3F800000, E := "E", F := [1],
    G := [("GOLANG", 1)] }

/-! ## Lemmas on `int` arithmetic -/

theorem two_pow_eq_double (w : Nat) (hw : 0 < w) :
    (2 : Int) ^ w = 2 * 2 ^ (w - 1) := by
  obtain ⟨k, rfl⟩ := Nat.exists_eq_succ_of_ne_zero (Nat.pos_iff_ne_zero.mp hw)
  rw [Nat.succ_sub_one, pow_succ]
  ring

theorem two_pow_le_double (w : Nat) : (2 : Int) ^ w ≤ 2 * 2 ^ (w - 1) := by
  rcases Nat.eq_zero_or_pos w with h | h
  · subst h
    norm_num
  · exact le_of_eq (two_pow_eq_double w h)

/-- A value already in range is left alone by the reduction. -/
theorem wrapInt_of_isInt (w : Nat) (hw : 0 < w) (z : Int) (hz : IsInt w z) :
    wrapInt w z = z := by
  unfold wrapInt
  unfold IsInt at hz
  rw [two_pow_eq_double w hw]
  generalize (2 : Int) ^ (w - 1) = h at hz ⊢
  rw [Int.emod_eq_of_lt (by omega) (by omega)]
  omega

/-- The reduction always lands in range. -/
theorem isInt_wrapInt (w : Nat) (z : Int) : IsInt w (wrapInt w z) := by
  unfold wrapInt IsInt
  have hM : (0 : Int) < 2 ^ w := by positivity
  have h1 := Int.emod_nonneg (z + 2 ^ (w - 1)) (ne_of_gt hM)
  have h2 := Int.emod_lt_of_pos (z + 2 ^ (w - 1)) hM
  have h3 := two_pow_le_double w
  constructor <;> linarith

/-- Reducing an intermediate result does not change the reduced sum. -/
theorem wrapInt_wrapInt_add (w : Nat) (a b : Int) :
    wrapInt w (wrapInt w a + b) = wrapInt w (a + b) := by
  unfold wrapInt
  have e : (a + 2 ^ (w - 1)) % 2 ^ w - 2 ^ (w - 1) + b + 2 ^ (w - 1)
      = (a + 2 ^ (w - 1)) % 2 ^ w + b := by ring
  rw [e, Int.emod_add_emod]
  have e2 : a + 2 ^ (w - 1) + b = a + b + 2 ^ (w - 1) := by ring
  rw [e2]

/-- With at least one trailing argument, the loop of `variableCut` returns the
reduction of the mathematical total. -/
theorem variableCut_cons (w : Nat) (s : List Int) :
    ∀ x v : Int, variableCut w x (v :: s) = wrapInt w (x + (v :: s).sum) := by
  induction s with
  | nil =>
    intro x v
    simp [variableCut]
  | cons u t ih =>
    intro x v
    have step : variableCut w x (v :: u :: t)
        = variableCut w (wrapInt w (x + v)) (u :: t) := rfl
    rw [step, ih, wrapInt_wrapInt_add]
    simp [List.sum_cons, add_assoc]

/-- The callee of `modifyValue` works on its own cell: the store it returns is
the store it was called in. -/
theorem modifyValue_eq (w : Nat) (m : Store) (x : Int) :
    modifyValue w m x = some m := by
  simp [modifyValue, load, store]

/-- The reduction changes a value by a multiple of `2 ^ w`. -/
theorem wrapInt_sub_dvd (w : Nat) (z : Int) :
    (2 : Int) ^ w ∣ wrapInt w z - z := by
  refine ⟨-((z + 2 ^ (w - 1)) / 2 ^ w), ?_⟩
  unfold wrapInt
  rw [Int.emod_def]
  ring

/-- The loop of `variableCut` run over a concatenation is the loop over the
second part started from the result of the loop over the first. -/
theorem variableCut_split (w : Nat) (x : Int) (s t : List Int) :
    variableCut w x (s ++ t) = variableCut w (variableCut w x s) t := by
  unfold variableCut
  exact List.foldl_append _ _ _ _

/-! ## Claims on `3-function/ch_1/main.go` -/

/-- C1 (as stated, refuted): on a 64-bit platform `add(9223372036854775807, 1)`
is `-9223372036854775808`, not the sum `9223372036854775808`; on a 32-bit
platform `add(2147483647, 1)` is `-2147483648`. Both arguments are values of
type `int`. -/
theorem add_overflow_counterexample :
    IsInt 64 9223372036854775807 ∧ IsInt 64 1 ∧
    add 64 9223372036854775807 1 = -9223372036854775808 ∧
    add 64 9223372036854775807 1 ≠ 9223372036854775807 + 1 ∧
    IsInt 32 2147483647 ∧ IsInt 32 1 ∧
    add 32 2147483647 1 = -2147483648 ∧
    add 32 2147483647 1 ≠ 2147483647 + 1 := by
  decide

/-- C1 (amended): for all integers `a` and `b` whose sum `a + b` is
representable in `int`, `add(a, b)` equals `a + b`. -/
theorem add_eq_sum_of_isInt (w : Nat) (hw : 0 < w) (a b : Int)
    (h : IsInt w (a + b)) : add w a b = a + b := by
  unfold add
  exact wrapInt_of_isInt w hw (a + b) h

/-- Witness of `add_eq_sum_of_isInt`: the call `add(1, 2)` of `main`. -/
theorem add_eq_sum_of_isInt_witness :
    0 < 64 ∧ IsInt 64 (1 + 2) ∧ add 64 1 2 = 1 + 2 :=
  ⟨by decide, by decide, add_eq_sum_of_isInt 64 (by decide) 1 2 (by decide)⟩

/-- C2 (as stated, refuted): on a 64-bit platform
`variableCut(9223372036854775807, 1)` is `-9223372036854775808`, not
`9223372036854775807 + 1`; likewise `variableCut(2147483647, 1)` on a 32-bit
platform. All arguments are values of type `int`. -/
theorem variableCut_overflow_counterexample :
    IsInt 64 9223372036854775807 ∧ IsInt 64 1 ∧
    variableCut 64 9223372036854775807 [1] = -9223372036854775808 ∧
    variableCut 64 9223372036854775807 [1] ≠ 9223372036854775807 + List.sum [1] ∧
    IsInt 32 2147483647 ∧ IsInt 32 1 ∧
    variableCut 32 2147483647 [1] = -2147483648 ∧
    variableCut 32 2147483647 [1] ≠ 2147483647 + List.sum [1] := by
  decide

/-- C2 (amended): for all integers `x` and every finite sequence `s` of
trailing integers such that `x + sum(s)` is representable in `int`,
`variableCut(x, s...)` equals `x + sum(s)`, whatever the partial sums do. -/
theorem variableCut_eq_sum_of_isInt (w : Nat) (hw : 0 < w) (x : Int)
    (s : List Int) (h : IsInt w (x + s.sum)) :
    variableCut w x s = x + s.sum := by
  cases s with
  | nil => simp [variableCut]
  | cons v t =>
    rw [variableCut_cons]
    exact wrapInt_of_isInt w hw _ h

/-- Witness of `variableCut_eq_sum_of_isInt`: the call
`variableCut(1, 2, 3, 4, 5)` of `main` returns 15. -/
theorem variableCut_eq_sum_of_isInt_witness :
    0 < 64 ∧ IsInt 64 (1 + List.sum [2, 3, 4, 5]) ∧
    variableCut 64 1 [2, 3, 4, 5] = 15 :=
  ⟨by decide, by decide,
    (variableCut_eq_sum_of_isInt 64 (by decide) 1 [2, 3, 4, 5] (by decide)).trans
      (by decide)⟩

/-- C3: for all integers `a` and `b`, `swap(a, b)` returns the pair `(b, a)`;
in particular `swap(1, 2)` is `(2, 1)`. -/
theorem swap_eq :
    (∀ a b : Int, swap a b = (b, a)) ∧ swap 1 2 = (2, 1) :=
  ⟨fun _ _ => rfl, rfl⟩

/-- C4: swap is an involution: applying `swap` to the pair returned by
`swap(a, b)` gives back `(a, b)`. -/
theorem swap_swap (a b : Int) :
    swap (swap a b).1 (swap a b).2 = (a, b) :=
  rfl

/-- C5: if the caller's variable at address `px` holds `v`, the call
`modifyValue(x)` returns and the variable at `px` still holds `v`. -/
theorem modifyValue_caller_unchanged (w : Nat) (m : Store) (px : Nat) (v : Int)
    (h : load m (.addr px) = some v) :
    ∃ m', callModifyValue w m px = some m' ∧ load m' (.addr px) = some v := by
  refine ⟨m, ?_, h⟩
  simp [callModifyValue, h, modifyValue_eq]

/-- Witness of `modifyValue_caller_unchanged`: in `main`, `x = 1` (at address 0,
next to `y`) stays 1 after `modifyValue(x)`. -/
theorem modifyValue_caller_unchanged_witness :
    load [1, 1] (.addr 0) = some 1 ∧
    ∃ m', callModifyValue 64 [1, 1] 0 = some m' ∧ load m' (.addr 0) = some 1 :=
  ⟨rfl, modifyValue_caller_unchanged 64 [1, 1] 0 1 rfl⟩

/-- C6 (as stated, refuted): on a 64-bit platform, with the caller's variable
holding `4611686018427387904`, after `modifyPointer(&x)` it holds
`-9223372036854775808`, not `4611686018427387904 * 10`; likewise for
`1073741824` on a 32-bit platform. -/
theorem modifyPointer_overflow_counterexample :
    IsInt 64 4611686018427387904 ∧
    callModifyPointer 64 [4611686018427387904] 0 = some [-9223372036854775808] ∧
    (-9223372036854775808 : Int) ≠ 4611686018427387904 * 10 ∧
    IsInt 32 1073741824 ∧
    callModifyPointer 32 [1073741824] 0 = some [-2147483648] ∧
    (-2147483648 : Int) ≠ 1073741824 * 10 := by
  decide

/-- C6 (amended): if the caller's variable at address `px` holds `v` and
`v * 10` is representable in `int`, the call `modifyPointer(&x)` returns and
the variable at `px` then holds `v * 10`. -/
theorem modifyPointer_caller_scaled (w : Nat) (hw : 0 < w) (m : Store)
    (px : Nat) (v : Int) (h : load m (.addr px) = some v)
    (hv : IsInt w (v * 10)) :
    ∃ m', callModifyPointer w m px = some m' ∧
      load m' (.addr px) = some (v * 10) := by
  have hlen : px < m.length := by
    simp only [load] at h
    exact (List.getElem?_eq_some_iff.mp h).1
  refine ⟨m.set px (v * 10), ?_, ?_⟩
  · simp [callModifyPointer, modifyPointer, h, store, hlen,
      wrapInt_of_isInt w hw _ hv]
  · simp [load, hlen]

/-- Witness of `modifyPointer_caller_scaled`: in `main`, `x = 1` (at address 0,
next to `y`) becomes 10 after `modifyPointer(&x)`. -/
theorem modifyPointer_caller_scaled_witness :
    0 < 64 ∧ load [1, 1] (.addr 0) = some 1 ∧ IsInt 64 (1 * 10) ∧
    ∃ m', callModifyPointer 64 [1, 1] 0 = some m' ∧
      load m' (.addr 0) = some (1 * 10) :=
  ⟨by decide, rfl, by decide,
    modifyPointer_caller_scaled 64 (by decide) [1, 1] 0 1 rfl (by decide)⟩

/-- C7: with an empty trailing sequence `variableCut` returns `x` unchanged. -/
theorem variableCut_nil (w : Nat) (x : Int) : variableCut w x [] = x :=
  rfl

/-! ## Claims on `5-struct/ch_1/main.go` -/

/-- C8: assigning `v` to field `a` of a Demo record gives a record whose `a`
is `v` and whose fields `B`, `C`, `D`, `E`, `F` and `G` are as before; in
particular for the record of `main` after `d.a = false`. -/
theorem setA_frame :
    (∀ (d : Demo) (v : Bool),
      (d.setA v).a = v ∧ (d.setA v).B = d.B ∧ (d.setA v).C = d.C ∧
      (d.setA v).D = d.D ∧ (d.setA v).E = d.E ∧ (d.setA v).F = d.F ∧
      (d.setA v).G = d.G) ∧
    mainDemo.setA false =
      { a := false, B := 98, C := 1, D := 0x3F800000, E := "E", F := [1],
        G := [("GOLANG", 1)] } :=
  ⟨fun _ _ => ⟨rfl, rfl, rfl, rfl, rfl, rfl, rfl⟩, rfl⟩

/-- C9: constructing a Demo from seven field values and reading each field
back, the unexported field `a` included, yields the value given for it. -/
theorem demo_read_back (a : Bool) (b : Fin 256) (c : Int) (d : Fin 4294967296)
    (e : String) (f : List Int) (g : List (String × Int)) :
    let r : Demo := { a := a, B := b, C := c, D := d, E := e, F := f, G := g }
    r.a = a ∧ r.B = b ∧ r.C = c ∧ r.D = d ∧ r.E = e ∧ r.F = f ∧ r.G = g :=
  ⟨rfl, rfl, rfl, rfl, rfl, rfl, rfl⟩

/-! ## Totality of the parameter-passing demo -/

/-- C10: every operation of the parameter-passing demo returns normally:
`add` and `variableCut` produce a value of type `int` (overflow wraps, it does
not panic), `swap` and `swap2` return their two `int` arguments, `modifyValue`
returns for every argument, and `modifyPointer` returns for every reference to
a live cell. -/
theorem demo_total (w : Nat) :
    (∀ a b : Int, IsInt w (add w a b)) ∧
    (∀ a b : Int, IsInt w a → IsInt w b →
      IsInt w (swap a b).1 ∧ IsInt w (swap a b).2) ∧
    (∀ a b : Int, IsInt w a → IsInt w b →
      IsInt w (swap2 a b).1 ∧ IsInt w (swap2 a b).2) ∧
    (∀ (x : Int) (s : List Int), IsInt w x → IsInt w (variableCut w x s)) ∧
    (∀ (m : Store) (x : Int), ∃ m', modifyValue w m x = some m') ∧
    (∀ (m : Store) (px : Nat), px < m.length →
      ∃ m', modifyPointer w m (.addr px) = some m' ∧ m'.length = m.length) := by
  refine ⟨fun a b => isInt_wrapInt w _, fun a b ha hb => ⟨hb, ha⟩,
    fun a b ha hb => ⟨hb, ha⟩, ?_, fun m x => ⟨m, modifyValue_eq w m x⟩, ?_⟩
  · intro x s hx
    cases s with
    | nil => exact hx
    | cons v t =>
      rw [variableCut_cons]
      exact isInt_wrapInt w _
  · intro m px hlen
    refine ⟨m.set px (wrapInt w (m[px] * 10)), ?_, by simp⟩
    simp [modifyPointer, load, store, hlen]

/-- Witness of `demo_total`: the calls of `main` on a 64-bit platform, with
`x` at address 0 next to `y`. -/
theorem demo_total_witness :
    IsInt 64 (add 64 1 2) ∧
    (IsInt 64 (swap 1 2).1 ∧ IsInt 64 (swap 1 2).2) ∧
    (IsInt 64 (swap2 1 2).1 ∧ IsInt 64 (swap2 1 2).2) ∧
    IsInt 64 (variableCut 64 1 [2, 3, 4, 5]) ∧
    (∃ m', modifyValue 64 [1, 1] 1 = some m') ∧
    (∃ m', modifyPointer 64 [1, 1] (.addr 0) = some m' ∧
      m'.length = List.length [1, 1]) :=
  ⟨(demo_total 64).1 1 2,
    (demo_total 64).2.1 1 2 (by decide) (by decide),
    (demo_total 64).2.2.1 1 2 (by decide) (by decide),
    (demo_total 64).2.2.2.1 1 [2, 3, 4, 5] (by decide),
    (demo_total 64).2.2.2.2.1 [1, 1] 1,
    (demo_total 64).2.2.2.2.2 [1, 1] 0 (by decide)⟩

/-! ## Behaviour of the parameter-passing demo beyond the stated contract -/

/-- C11: `swap2`, written with named results, returns the same pair as `swap`
for all integers `x` and `y`, namely `(y, x)`. -/
theorem swap2_eq_swap (x y : Int) :
    swap2 x y = swap x y ∧ swap2 x y = (y, x) :=
  ⟨rfl, rfl⟩

/-- C12: `add` and `variableCut` compute in the `w`-bit `int`: `add(a, b)` lies
in `[-2^(w-1), 2^(w-1))` and differs from `a + b` by a multiple of `2^w`, so it
equals `a + b` exactly when `a + b` lies in range; `variableCut(x, s...)` for
an `int` `x` lies in range and differs from `x + sum(s)` by a multiple of
`2^w`. -/
theorem int_arithmetic_wraps (w : Nat) (hw : 0 < w) :
    (∀ a b : Int, IsInt w (add w a b) ∧ (2 : Int) ^ w ∣ add w a b - (a + b) ∧
      (add w a b = a + b ↔ IsInt w (a + b))) ∧
    (∀ (x : Int) (s : List Int), IsInt w x →
      IsInt w (variableCut w x s) ∧
      (2 : Int) ^ w ∣ variableCut w x s - (x + s.sum)) := by
  constructor
  · intro a b
    refine ⟨isInt_wrapInt w _, wrapInt_sub_dvd w _, ?_, ?_⟩
    · intro h
      rw [← h]
      exact isInt_wrapInt w _
    · intro h
      exact wrapInt_of_isInt w hw _ h
  · intro x s hx
    cases s with
    | nil =>
      refine ⟨hx, ?_⟩
      simp [variableCut]
    | cons v t =>
      rw [variableCut_cons]
      exact ⟨isInt_wrapInt w _, wrapInt_sub_dvd w _⟩

/-- Witness of `int_arithmetic_wraps`: on a 64-bit platform, the overflowing
call `add(9223372036854775807, 1)` and the call `variableCut(1, 2, 3, 4, 5)` of
`main`. -/
theorem int_arithmetic_wraps_witness :
    0 < 64 ∧
    (IsInt 64 (add 64 9223372036854775807 1) ∧
      (2 : Int) ^ 64 ∣ add 64 9223372036854775807 1 - (9223372036854775807 + 1) ∧
      (add 64 9223372036854775807 1 = 9223372036854775807 + 1 ↔
        IsInt 64 (9223372036854775807 + 1))) ∧
    IsInt 64 1 ∧
    (IsInt 64 (variableCut 64 1 [2, 3, 4, 5]) ∧
      (2 : Int) ^ 64 ∣ variableCut 64 1 [2, 3, 4, 5] - (1 + List.sum [2, 3, 4, 5])) :=
  ⟨by decide, (int_arithmetic_wraps 64 (by decide)).1 9223372036854775807 1,
    by decide,
    (int_arithmetic_wraps 64 (by decide)).2 1 [2, 3, 4, 5] (by decide)⟩

/-- C13: `variableCut` splits over concatenation: `variableCut(x, (s ++ t)...)`
equals `variableCut(variableCut(x, s...), t...)`, and with a single trailing
argument `variableCut(x, y)` equals `add(x, y)`. -/
theorem variableCut_append (w : Nat) (x : Int) :
    (∀ s t : List Int,
      variableCut w x (s ++ t) = variableCut w (variableCut w x s) t) ∧
    (∀ y : Int, variableCut w x [y] = add w x y) :=
  ⟨fun s t => variableCut_split w x s t, fun _ => rfl⟩

/-- C14: the result of `variableCut` does not depend on the order of the
trailing arguments: if `t` is a permutation of `s`, then
`variableCut(x, s...)` equals `variableCut(x, t...)`. -/
theorem variableCut_perm (w : Nat) (x : Int) (s t : List Int)
    (h : s.Perm t) : variableCut w x s = variableCut w x t := by
  cases s with
  | nil =>
    rw [List.Perm.eq_nil (List.Perm.symm h)]
  | cons a s1 =>
    cases t with
    | nil => exact absurd (List.Perm.eq_nil h) (List.cons_ne_nil a s1)
    | cons b t1 =>
      rw [variableCut_cons, variableCut_cons, List.Perm.sum_eq h]

/-- Witness of `variableCut_perm`: the trailing arguments of the call of `main`
and their reversal; on a 64-bit platform both calls return 15. -/
theorem variableCut_perm_witness :
    List.Perm [2, 3, 4, 5] [5, 4, 3, 2] ∧
    variableCut 64 1 [2, 3, 4, 5] = variableCut 64 1 [5, 4, 3, 2] :=
  ⟨by decide, variableCut_perm 64 1 [2, 3, 4, 5] [5, 4, 3, 2] (by decide)⟩

end GolangTutorial
